import Mathlib

/-!
Verification of the `sensorutils` repository (metrics module and the UCIHAR
dataset loader) against its natural-language specification.

The numpy code is shallowly embedded in two numeric domains:

* exact reals (`ℝ`): 2-D arrays are `Mat := List (List ℝ)`, and the
  reduction-axis argument of the metrics is `Axis` (`axis=None`, `axis=0`,
  `axis=1` of a 2-D array).  A reduced value is an `NpVal`: a scalar for
  `axis=None`, a 1-D vector otherwise.
* IEEE special values (`RF`): real numbers extended with `+inf`, `-inf` and
  `NaN`, with the IEEE 754 rules for the arithmetic the metrics use.  This
  domain is the one in which claims about `inf`/`NaN` propagation
  (division by zero, `log10` of zero, `0/0`) are stated; 1-D arrays are
  `List RF`.

Every definition is translated from `src/sensorutils/metrics.py` and
`src/sensorutils/datasets/ucihar.py`; the one exception is the handful of
`...Spec` definitions, which follow the specification's words and are
compared with the source translation in refinement theorems.
-/

namespace SensorUtils

/-- A 2-D numpy array of floats, row major. -/
abbrev Mat := List (List ℝ)

/-- The reduction-axis argument for a 2-D array: `axis=None`, `axis=0`
(reduce down the columns), `axis=1` (reduce along the rows). -/
inductive Axis where
  | all : Axis
  | a0 : Axis
  | a1 : Axis
deriving DecidableEq, Repr

/-- The value of a reduction of a 2-D array: a scalar for `axis=None`,
a 1-D array otherwise. -/
inductive NpVal where
  | scalar (x : ℝ) : NpVal
  | vec (v : List ℝ) : NpVal

/-- `true` iff the value is a 1-D array (not a scalar). -/
def NpVal.isVec : NpVal → Bool
  | .scalar _ => false
  | .vec _ => true

/-- `none` for a scalar, `some` the length for a 1-D array. -/
def NpVal.vlen : NpVal → Option Nat
  | .scalar _ => none
  | .vec v => some v.length

/-- `np.mean` of a 1-D array: sum divided by length (`0/0` junk-reduces to
`0` in the exact-real domain; the IEEE domain below keeps the `NaN`). -/
noncomputable def listMean (l : List ℝ) : ℝ := l.sum / l.length

/-- Elementwise binary numpy operation on two same-shape 2-D arrays. -/
noncomputable def map2 (f : ℝ → ℝ → ℝ) (a b : Mat) : Mat := List.zipWith (List.zipWith f) a b

/-- Elementwise unary numpy operation on a 2-D array. -/
noncomputable def mapE (f : ℝ → ℝ) (m : Mat) : Mat := m.map (List.map f)

/-- `true - pred` elementwise. -/
noncomputable def subM (a b : Mat) : Mat := map2 (fun x y => x - y) a b

/-- `a / b` elementwise. -/
noncomputable def divM (a b : Mat) : Mat := map2 (fun x y => x / y) a b

/-- `np.abs` elementwise. -/
noncomputable def absM (m : Mat) : Mat := mapE (fun x => |x|) m

/-- `np.square` elementwise. -/
noncomputable def sqM (m : Mat) : Mat := mapE (fun x => x ^ 2) m

/-- `np.ones_like` : an array of ones of the same shape. -/
noncomputable def onesLike (m : Mat) : Mat := mapE (fun _ => 1) m

/-- Column `j` of a 2-D array (in-range for rectangular input). -/
noncomputable def colOf (m : Mat) (j : Nat) : List ℝ := m.map (fun row => row.getD j 0)

/-- Reduce a 2-D array with the 1-D aggregator `g` along `ax`
(`np.mean(m, axis=ax)` / `np.sum(m, axis=ax)` with `g` the 1-D reduction). -/
noncomputable def aggAx (g : List ℝ → ℝ) (m : Mat) : Axis → NpVal
  | .all => .scalar (g m.flatten)
  | .a0 => .vec ((List.range (m.headD []).length).map (fun j => g (colOf m j)))
  | .a1 => .vec (m.map g)

/-- `np.mean` with an axis argument. -/
noncomputable def meanAx (m : Mat) (ax : Axis) : NpVal := aggAx listMean m ax

/-- `np.sum` with an axis argument. -/
noncomputable def sumAx (m : Mat) (ax : Axis) : NpVal := aggAx List.sum m ax

/-- A unary numpy ufunc applied to a reduced value. -/
noncomputable def mapVal (f : ℝ → ℝ) : NpVal → NpVal
  | .scalar x => .scalar (f x)
  | .vec v => .vec (v.map f)

/-- Multiplication of a reduced value by a python scalar `c` (`c * val`). -/
noncomputable def scaleVal (c : ℝ) (v : NpVal) : NpVal := mapVal (fun x => c * x) v

/-- An elementwise binary numpy operation on two reduced values, with numpy
scalar broadcasting. -/
noncomputable def zipVal (f : ℝ → ℝ → ℝ) : NpVal → NpVal → NpVal
  | .scalar a, .scalar b => .scalar (f a b)
  | .scalar a, .vec w => .vec (w.map (fun y => f a y))
  | .vec v, .scalar b => .vec (v.map (fun x => f x b))
  | .vec v, .vec w => .vec (List.zipWith f v w)

/-- `metrics.mae`: `np.abs(true - pred).mean(axis=axis)`. -/
noncomputable def mae (t p : Mat) (ax : Axis) : NpVal := meanAx (absM (subM t p)) ax

/-- `metrics.mape`: `mae(np.ones_like(true), pred / true, axis) * 100`. -/
noncomputable def mape (t p : Mat) (ax : Axis) : NpVal :=
  scaleVal 100 (mae (onesLike t) (divM p t) ax)

/-- `metrics.mse`: `np.square(true - pred).mean(axis=axis)`. -/
noncomputable def mse (t p : Mat) (ax : Axis) : NpVal := meanAx (sqM (subM t p)) ax

/-- `metrics.rmse`: `np.sqrt(mse(true, pred, axis))`. -/
noncomputable def rmse (t p : Mat) (ax : Axis) : NpVal := mapVal Real.sqrt (mse t p ax)

/-- `metrics.rmspe`: `rmse(np.ones_like(true), pred / true, axis) * 100`. -/
noncomputable def rmspe (t p : Mat) (ax : Axis) : NpVal :=
  scaleVal 100 (rmse (onesLike t) (divM p t) ax)

/-- `metrics.rmsle`: `rmse(np.log(true + 1), np.log(pred + 1), axis=axis)`. -/
noncomputable def rmsle (t p : Mat) (ax : Axis) : NpVal :=
  rmse (mapE (fun x => Real.log (x + 1)) t) (mapE (fun x => Real.log (x + 1)) p) ax

/-- The scalar held by an `axis=None` reduction (junk `0` on a vector). -/
def NpVal.s0 : NpVal → ℝ
  | .scalar x => x
  | .vec _ => 0

/-- `np.var` over all elements. -/
noncomputable def varAll (m : Mat) : ℝ :=
  listMean (m.flatten.map (fun x => (x - listMean m.flatten) ^ 2))

/-- `metrics.r2`: `1 - (mse(true, pred) / np.var(true))`, scalar only. -/
noncomputable def r2 (t p : Mat) : ℝ := 1 - (mse t p .all).s0 / varAll t

/-- The shape of a 2-D array (rows, cols); faithful on rectangular arrays,
which are the only ones numpy can represent. -/
def npShape (m : Mat) : Nat × Nat := (m.length, (m.headD []).length)

/-- The body of `metrics.snr` after its `assert`:
`10 * np.log10(signal_ms / noise_mse)` with
`noise_mse = np.square(true - pred).sum(axis=axis)` and
`signal_ms = np.square(true).sum(axis=axis)`. -/
noncomputable def snrVal (t p : Mat) (ax : Axis) : NpVal :=
  scaleVal 10 (mapVal (Real.logb 10)
    (zipVal (fun a b => a / b) (sumAx (sqM t) ax) (sumAx (sqM (subM t p)) ax)))

/-- `metrics.snr`: asserts `true.shape == pred.shape`, then computes
`snrVal`.  The failed `assert` is an `Except.error`. -/
noncomputable def snr (t p : Mat) (ax : Axis) : Except String NpVal :=
  if npShape t = npShape p then .ok (snrVal t p ax)
  else .error "true.shape == pred.shape failed"

/-- `metrics.lsd`:
`np.sqrt(np.mean(20 * np.log10(np.abs(true_spec / (true_spec - pred_spec)))))`.
The inner `np.mean` is called without an axis argument, so the `axis`
parameter of `lsd` is accepted but never used, and no squaring is applied
to the `20 * log10` term. -/
noncomputable def lsd (t p : Mat) (_ax : Axis) : NpVal :=
  .scalar (Real.sqrt (listMean
    ((mapE (fun x => 20 * Real.logb 10 |x|) (divM t (subM t p))).flatten)))

/-! ## IEEE special-value domain

`RF` is a real number extended with the IEEE 754 special values `+inf`,
`-inf` and `NaN` (no rounding is modelled: finite values are exact reals).
The arithmetic below follows the IEEE 754 rules that numpy float64
operations obey for the operations the metrics use. -/

/-- An IEEE-style float value: a finite real, an infinity, or NaN. -/
inductive RF where
  | fin (x : ℝ) : RF
  | pinf : RF
  | ninf : RF
  | nan : RF

/-- IEEE negation. -/
noncomputable def Fneg : RF → RF
  | .fin x => .fin (-x)
  | .pinf => .ninf
  | .ninf => .pinf
  | .nan => .nan

/-- IEEE addition: `inf + (-inf) = NaN`, `NaN` propagates. -/
noncomputable def Fadd : RF → RF → RF
  | .fin a, .fin b => .fin (a + b)
  | .fin _, .pinf => .pinf
  | .fin _, .ninf => .ninf
  | .pinf, .fin _ => .pinf
  | .ninf, .fin _ => .ninf
  | .pinf, .pinf => .pinf
  | .ninf, .ninf => .ninf
  | .pinf, .ninf => .nan
  | .ninf, .pinf => .nan
  | .nan, _ => .nan
  | _, .nan => .nan

/-- IEEE subtraction: `a - b = a + (-b)`; in particular
`(-inf) - (-inf) = NaN`. -/
noncomputable def Fsub (a b : RF) : RF := Fadd a (Fneg b)

/-- IEEE multiplication: `0 * inf = NaN`, signs multiply, `NaN` propagates. -/
noncomputable def Fmul : RF → RF → RF
  | .fin a, .fin b => .fin (a * b)
  | .fin a, .pinf => if 0 < a then .pinf else if a < 0 then .ninf else .nan
  | .fin a, .ninf => if 0 < a then .ninf else if a < 0 then .pinf else .nan
  | .pinf, .fin b => if 0 < b then .pinf else if b < 0 then .ninf else .nan
  | .ninf, .fin b => if 0 < b then .ninf else if b < 0 then .pinf else .nan
  | .pinf, .pinf => .pinf
  | .pinf, .ninf => .ninf
  | .ninf, .pinf => .ninf
  | .ninf, .ninf => .pinf
  | .nan, _ => .nan
  | _, .nan => .nan

/-- IEEE division: `x/0` is a signed infinity for `x ≠ 0`, `0/0 = NaN`,
`inf/inf = NaN`, `finite/inf = 0`, `NaN` propagates. -/
noncomputable def Fdiv : RF → RF → RF
  | .fin a, .fin b =>
      if b ≠ 0 then .fin (a / b)
      else if 0 < a then .pinf else if a < 0 then .ninf else .nan
  | .fin _, .pinf => .fin 0
  | .fin _, .ninf => .fin 0
  | .pinf, .fin b => if 0 ≤ b then .pinf else .ninf
  | .ninf, .fin b => if 0 ≤ b then .ninf else .pinf
  | .pinf, .pinf => .nan
  | .pinf, .ninf => .nan
  | .ninf, .pinf => .nan
  | .ninf, .ninf => .nan
  | .nan, _ => .nan
  | _, .nan => .nan

/-- IEEE absolute value. -/
noncomputable def Fabs : RF → RF
  | .fin x => .fin |x|
  | .pinf => .pinf
  | .ninf => .pinf
  | .nan => .nan

/-- `np.square`: `x * x`. -/
noncomputable def Fsq (x : RF) : RF := Fmul x x

/-- IEEE natural logarithm (`np.log`): `log 0 = -inf`, `log x = NaN` for
`x < 0`, `log (+inf) = +inf`. -/
noncomputable def Flog : RF → RF
  | .fin x => if 0 < x then .fin (Real.log x) else if x = 0 then .ninf else .nan
  | .pinf => .pinf
  | .ninf => .nan
  | .nan => .nan

/-- IEEE base-10 logarithm (`np.log10`), same special cases as `Flog`. -/
noncomputable def Flog10 : RF → RF
  | .fin x => if 0 < x then .fin (Real.logb 10 x) else if x = 0 then .ninf else .nan
  | .pinf => .pinf
  | .ninf => .nan
  | .nan => .nan

/-- IEEE square root (`np.sqrt`): `NaN` for negative input. -/
noncomputable def Fsqrt : RF → RF
  | .fin x => if 0 ≤ x then .fin (Real.sqrt x) else .nan
  | .pinf => .pinf
  | .ninf => .nan
  | .nan => .nan

/-- `np.sum` of a 1-D float array (left accumulation from `0.0`). -/
noncomputable def Fsum (l : List RF) : RF := l.foldl Fadd (.fin 0)

/-- `np.mean` of a 1-D float array: sum over length; the mean of an empty
array is `0.0/0 = NaN`, as in numpy. -/
noncomputable def Fmean (l : List RF) : RF := Fdiv (Fsum l) (.fin l.length)

/-- `np.ones_like` on a 1-D float array. -/
noncomputable def FonesLike (l : List RF) : List RF := l.map (fun _ => .fin 1)

/-- `metrics.mae` on 1-D float arrays (for a 1-D array every valid axis
argument denotes the same full reduction, so the axis is dropped). -/
noncomputable def maeF (t p : List RF) : RF :=
  Fmean ((List.zipWith Fsub t p).map Fabs)

/-- `metrics.mape` on 1-D float arrays:
`mae(np.ones_like(true), pred / true) * 100`. -/
noncomputable def mapeF (t p : List RF) : RF :=
  Fmul (maeF (FonesLike t) (List.zipWith Fdiv p t)) (.fin 100)

/-- `metrics.mse` on 1-D float arrays. -/
noncomputable def mseF (t p : List RF) : RF :=
  Fmean ((List.zipWith Fsub t p).map Fsq)

/-- `metrics.rmse` on 1-D float arrays. -/
noncomputable def rmseF (t p : List RF) : RF := Fsqrt (mseF t p)

/-- `metrics.rmsle` on 1-D float arrays:
`rmse(np.log(true + 1), np.log(pred + 1))`. -/
noncomputable def rmsleF (t p : List RF) : RF :=
  rmseF (t.map (fun x => Flog (Fadd x (.fin 1)))) (p.map (fun x => Flog (Fadd x (.fin 1))))

/-- `metrics.snr` on 1-D float arrays: asserts equal shapes, then
`10 * np.log10(signal_ms / noise_mse)`. -/
noncomputable def snrF (t p : List RF) : Except String RF :=
  if t.length = p.length then
    .ok (Fmul (.fin 10)
      (Flog10 (Fdiv (Fsum (t.map Fsq)) (Fsum ((List.zipWith Fsub t p).map Fsq)))))
  else .error "true.shape == pred.shape failed"

/-! ## The UCIHAR dataset loader (`datasets/ucihar.py`) -/

/-- One row of a split's meta table: the `activity` code and the
`person_id` subject code (`load_meta` joins the two single-column files). -/
structure MetaRow where
  activity : ℤ
  person_id : ℤ
deriving DecidableEq, Repr

/-- `PERSONS = list(range(1, 31))`: the enumerated subject ids 1..30. -/
def PERSONS : List ℤ := (List.range 30).map (fun i => (i : ℤ) + 1)

/-- `metas['person_id'] == person_id`: the boolean mask of one subject id. -/
def eqMask (metas : List MetaRow) (pid : ℤ) : List Bool :=
  metas.map (fun r => decide (r.person_id = pid))

/-- `np.logical_or` of two same-length boolean masks. -/
def orMask (a b : List Bool) : List Bool := List.zipWith or a b

/-- The retention mask of `UCIHAR.load`: start from `np.zeros((n,), bool)`
and OR in the per-subject mask for each requested id. -/
def buildFlags (n : Nat) (metas : List MetaRow) (pl : List ℤ) : List Bool :=
  pl.foldl (fun acc pid => orMask acc (eqMask metas pid)) (List.replicate n false)

/-- Boolean-mask row selection, `xs[flags]`. -/
def maskSel {α : Type _} (xs : List α) (flags : List Bool) : List α :=
  ((xs.zip flags).filter (fun xb => xb.2)).map (fun xb => xb.1)

/-- `UCIHAR.load` after the windows and the split's meta table have been
read: build the retention mask (`person_list` defaults to `PERSONS`),
select the windows, remap `activity` by `-1`, keep `person_id` unchanged,
and pair them row by row (`np.stack([labels, person_id_list]).T`). -/
def ucihar_load {W : Type _} (sdata : List W) (metas : List MetaRow)
    (person_list : Option (List ℤ)) : List W × List (ℤ × ℤ) :=
  let pl := person_list.getD PERSONS
  let flags := buildFlags sdata.length metas pl
  let sdata2 := maskSel sdata flags
  let labels := (maskSel (metas.map (fun r => r.activity)) flags).map (fun a => a - 1)
  let pids := (maskSel metas flags).map (fun r => r.person_id)
  (sdata2, labels.zip pids)

/-- The samples the specification says are retained: those whose
`person_id` is a member of the requested list, in original order, paired
with their meta rows. -/
def retainedSpec {W : Type _} (sdata : List W) (metas : List MetaRow)
    (pl : List ℤ) : List (W × MetaRow) :=
  (sdata.zip metas).filter (fun sm => decide (sm.2.person_id ∈ pl))

/-- The three per-axis signal files of one split+variant. -/
structure TriFiles where
  x : List (List ℝ)
  y : List (List ℝ)
  z : List (List ℝ)

/-- The inertial-signal files reachable from the dataset root: the
`total_acc` (gravity included) and `body_acc` triples of each split. -/
structure UciFS where
  train_total : TriFiles
  train_body : TriFiles
  test_total : TriFiles
  test_body : TriFiles

/-- The file triple the free function `load` reads, per its four-way
branch on `include_gravity` and `train`. -/
def selectTriple (fs : UciFS) (train include_gravity : Bool) : TriFiles :=
  if include_gravity then (if train then fs.train_total else fs.test_total)
  else (if train then fs.train_body else fs.test_body)

/-- Three-way zip, used to model
`np.concatenate([x[:, np.newaxis, :], y[:, np.newaxis, :], z[:, np.newaxis, :]], axis=1)`. -/
def zip3With {α β γ δ : Type _} (f : α → β → γ → δ) :
    List α → List β → List γ → List δ
  | a :: as, b :: bs, c :: cs => f a b c :: zip3With f as bs cs
  | _, _, _ => []

/-- The free function `ucihar.load`: read the three per-axis files of the
chosen split+variant and stack them along a new middle axis, giving sample
`i` the channels `[x[i], y[i], z[i]]`. -/
def ucihar_load_raw (fs : UciFS) (train include_gravity : Bool) :
    List (List (List ℝ)) :=
  let t := selectTriple fs train include_gravity
  zip3With (fun a b c => [a, b, c]) t.x t.y t.z

/-- Modelled from the spec's words for MAPE: "the percentage deviation of
the ratio pred/true from 1" — per cell `|1 - p/t|`, averaged over the
requested axis and scaled by 100.  Compared with the source translation
`mape` in a refinement theorem. -/
noncomputable def mapeSpec (t p : Mat) (ax : Axis) : NpVal :=
  scaleVal 100 (meanAx
    ((t.zip p).map (fun rp =>
      (rp.1.zip rp.2).map (fun ab => |1 - ab.2 / ab.1|))) ax)

/-- Modelled from the spec's words for MAPE on 1-D IEEE arrays: the mean
of `|1 - pred/true|` (IEEE rules), scaled by 100. -/
noncomputable def mapeSpecF (t p : List RF) : RF :=
  Fmul (Fmean ((List.zipWith Fdiv p t).map
    (fun r => Fabs (Fsub (.fin 1) r)))) (.fin 100)

/-! ## Lemmas about the loader -/

theorem maskSel_nil_left {α : Type _} (flags : List Bool) :
    maskSel ([] : List α) flags = [] := rfl

theorem maskSel_nil_right {α : Type _} (xs : List α) : maskSel xs [] = [] := by
  simp [maskSel]

theorem maskSel_cons {α : Type _} (x : α) (xs : List α) (b : Bool) (flags : List Bool) :
    maskSel (x :: xs) (b :: flags)
      = if b then x :: maskSel xs flags else maskSel xs flags := by
  cases b <;> simp [maskSel, List.filter_cons]

theorem foldflags_nil (pl : List ℤ) :
    pl.foldl (fun acc pid => orMask acc (eqMask [] pid)) [] = [] := by
  induction pl with
  | nil => rfl
  | cons q pl ih => simpa [orMask, eqMask] using ih

theorem foldflags_cons (r : MetaRow) (ms : List MetaRow) (pl : List ℤ) :
    ∀ (a : Bool) (as : List Bool),
      pl.foldl (fun acc pid => orMask acc (eqMask (r :: ms) pid)) (a :: as)
        = (pl.foldl (fun b pid => b || decide (r.person_id = pid)) a)
          :: pl.foldl (fun acc pid => orMask acc (eqMask ms pid)) as := by
  induction pl with
  | nil => intro a as; rfl
  | cons q pl ih =>
      intro a as
      simp only [List.foldl_cons]
      exact ih (a || decide (r.person_id = q)) (orMask as (eqMask ms q))

theorem foldl_or_mem (x : ℤ) (pl : List ℤ) :
    ∀ a : Bool, pl.foldl (fun b pid => b || decide (x = pid)) a
      = (a || decide (x ∈ pl)) := by
  induction pl with
  | nil => intro a; simp
  | cons q pl ih =>
      intro a
      simp only [List.foldl_cons]
      rw [ih]
      simp [List.mem_cons, Bool.decide_or, Bool.or_assoc]

theorem buildFlags_eq (metas : List MetaRow) (pl : List ℤ) :
    buildFlags metas.length metas pl
      = metas.map (fun r => decide (r.person_id ∈ pl)) := by
  induction metas with
  | nil => simpa [buildFlags] using foldflags_nil pl
  | cons r ms ih =>
      simp only [buildFlags, List.length_cons, List.replicate_succ] at ih ⊢
      rw [foldflags_cons, foldl_or_mem, ih]
      simp

theorem maskSel_map_filter {α β : Type _} (f : β → Bool) :
    ∀ (xs : List α) (ys : List β), xs.length = ys.length →
      maskSel xs (ys.map f)
        = ((xs.zip ys).filter (fun xy => f xy.2)).map Prod.fst := by
  intro xs
  induction xs with
  | nil => intro ys _; rfl
  | cons x xs ih =>
      intro ys h
      cases ys with
      | nil => simp at h
      | cons y ys =>
          have h' : xs.length = ys.length := by simpa using h
          simp only [List.map_cons, maskSel_cons, List.zip_cons_cons,
            List.filter_cons]
          cases hy : f y <;> simp [hy, ih ys h']

theorem maskSel_map {α β : Type _} (g : α → β) :
    ∀ (xs : List α) (flags : List Bool),
      maskSel (xs.map g) flags = (maskSel xs flags).map g := by
  intro xs
  induction xs with
  | nil => intro flags; rfl
  | cons x xs ih =>
      intro flags
      cases flags with
      | nil => simp [maskSel_nil_right]
      | cons b flags =>
          simp only [List.map_cons, maskSel_cons]
          cases b <;> simp [ih]

theorem maskSel_self_pred {β : Type _} (f : β → Bool) :
    ∀ (l : List β), maskSel l (l.map f) = l.filter f := by
  intro l
  induction l with
  | nil => rfl
  | cons y l ih =>
      simp only [List.map_cons, maskSel_cons, List.filter_cons]
      cases hy : f y <;> simp [ih]

theorem filter_zip_snd {α β : Type _} (f : β → Bool) :
    ∀ (xs : List α) (ys : List β), xs.length = ys.length →
      ((xs.zip ys).filter (fun xy => f xy.2)).map Prod.snd = ys.filter f := by
  intro xs
  induction xs with
  | nil =>
      intro ys h
      cases ys with
      | nil => rfl
      | cons y ys => simp at h
  | cons x xs ih =>
      intro ys h
      cases ys with
      | nil => simp at h
      | cons y ys =>
          have h' : xs.length = ys.length := by simpa using h
          simp only [List.zip_cons_cons, List.filter_cons]
          cases hy : f y <;> simp [hy, ih ys h']

/-- Master characterization of `UCIHAR.load`: with a well-formed dataset
(as many windows as meta rows), the loader keeps exactly the samples whose
`person_id` is in the requested list (default `PERSONS`), in order, and
emits `(activity - 1, person_id)` target pairs for them. -/
theorem ucihar_load_eq {W : Type _} (sdata : List W) (metas : List MetaRow)
    (pl0 : Option (List ℤ)) (h : sdata.length = metas.length) :
    ucihar_load sdata metas pl0 =
      ((retainedSpec sdata metas (pl0.getD PERSONS)).map Prod.fst,
       (retainedSpec sdata metas (pl0.getD PERSONS)).map
         (fun sm => (sm.2.activity - 1, sm.2.person_id))) := by
  have hflags : buildFlags sdata.length metas (pl0.getD PERSONS)
      = metas.map (fun r => decide (r.person_id ∈ pl0.getD PERSONS)) := by
    rw [h]; exact buildFlags_eq metas (pl0.getD PERSONS)
  simp only [ucihar_load, hflags, retainedSpec, Prod.mk.injEq]
  constructor
  · exact maskSel_map_filter _ sdata metas h
  · rw [maskSel_map, maskSel_self_pred]
    rw [List.map_map, List.zip_map']
    have hsnd := filter_zip_snd
      (fun r => decide (r.person_id ∈ pl0.getD PERSONS)) sdata metas h
    rw [← hsnd, List.map_map]
    rfl

/-- Claim C2: a sample is retained by `UCIHAR.load` iff its `person_id` is
a member of `person_list`; with `person_list = None` the default `PERSONS`
(ids 1..30) is used, so when every subject id of the split is in that
range all samples are retained; an empty `person_list` retains zero rows
without error; an id absent from the split contributes nothing, silently. -/
theorem load_retention_mask {W : Type} (sdata : List W) (metas : List MetaRow)
    (pl0 : Option (List ℤ)) (q : List ℤ) (extra : ℤ)
    (h : sdata.length = metas.length)
    (hall : metas.all (fun r => decide (r.person_id ∈ PERSONS)) = true)
    (hex : metas.all (fun r => decide (r.person_id ≠ extra)) = true) :
    (ucihar_load sdata metas pl0).1
        = (retainedSpec sdata metas (pl0.getD PERSONS)).map Prod.fst
    ∧ (ucihar_load sdata metas none).1 = sdata
    ∧ ucihar_load sdata metas (some []) = ([], [])
    ∧ ucihar_load sdata metas (some (q ++ [extra]))
        = ucihar_load sdata metas (some q) := by
  refine ⟨?_, ?_, ?_, ?_⟩
  · rw [ucihar_load_eq sdata metas pl0 h]
  · rw [ucihar_load_eq sdata metas none h]
    show (retainedSpec sdata metas PERSONS).map Prod.fst = sdata
    have hfull : retainedSpec sdata metas PERSONS = sdata.zip metas := by
      unfold retainedSpec
      apply List.filter_eq_self.mpr
      intro sm hsm
      have h2 : sm.2 ∈ metas := by
        obtain ⟨a, b⟩ := sm
        exact (List.of_mem_zip hsm).2
      simpa using (List.all_eq_true.mp hall) sm.2 h2
    rw [hfull]
    exact List.map_fst_zip sdata metas (le_of_eq h)
  · rw [ucihar_load_eq sdata metas (some []) h]
    simp [retainedSpec]
  · rw [ucihar_load_eq sdata metas (some (q ++ [extra])) h,
        ucihar_load_eq sdata metas (some q) h]
    have hre : retainedSpec sdata metas (q ++ [extra])
        = retainedSpec sdata metas q := by
      unfold retainedSpec
      apply List.filter_congr
      intro sm hsm
      have h2 : sm.2 ∈ metas := by
        obtain ⟨a, b⟩ := sm
        exact (List.of_mem_zip hsm).2
      have hne : sm.2.person_id ≠ extra := by
        simpa using (List.all_eq_true.mp hex) sm.2 h2
      simp [List.mem_append, hne]
    simp only [Option.getD_some, hre]

/-- Witness for C2 at a concrete two-sample dataset. -/
theorem load_retention_mask_witness :
    (([10, 20] : List ℕ).length = ([⟨1, 3⟩, ⟨2, 4⟩] : List MetaRow).length)
    ∧ (([⟨1, 3⟩, ⟨2, 4⟩] : List MetaRow).all
        (fun r => decide (r.person_id ∈ PERSONS)) = true)
    ∧ (([⟨1, 3⟩, ⟨2, 4⟩] : List MetaRow).all
        (fun r => decide (r.person_id ≠ (99 : ℤ))) = true)
    ∧ ((ucihar_load [10, 20] [⟨1, 3⟩, ⟨2, 4⟩] (some [3])).1
        = (retainedSpec [10, 20] [⟨1, 3⟩, ⟨2, 4⟩]
            ((some [3]).getD PERSONS)).map Prod.fst
      ∧ (ucihar_load [10, 20] [⟨1, 3⟩, ⟨2, 4⟩] (none : Option (List ℤ))).1
          = [10, 20]
      ∧ ucihar_load [10, 20] [⟨1, 3⟩, ⟨2, 4⟩] (some ([] : List ℤ)) = ([], [])
      ∧ ucihar_load [10, 20] [⟨1, 3⟩, ⟨2, 4⟩] (some ([4] ++ [99]))
          = ucihar_load [10, 20] [⟨1, 3⟩, ⟨2, 4⟩] (some [4])) :=
  ⟨rfl, by decide, by decide,
    load_retention_mask [10, 20] [⟨1, 3⟩, ⟨2, 4⟩] (some [3]) [4] 99 rfl
      (by decide) (by decide)⟩

/-- Claim C3: the targets returned by `UCIHAR.load` are one pair per
retained sample, with the remapped activity (`raw - 1`) in column 0 and
the unmodified `person_id` in column 1, for every `person_list`. -/
theorem load_targets_remap {W : Type} (sdata : List W) (metas : List MetaRow)
    (pl0 : Option (List ℤ)) (h : sdata.length = metas.length) :
    (ucihar_load sdata metas pl0).2
      = (retainedSpec sdata metas (pl0.getD PERSONS)).map
          (fun sm => (sm.2.activity - 1, sm.2.person_id)) := by
  rw [ucihar_load_eq sdata metas pl0 h]

/-- Witness for C3 at a concrete one-sample dataset. -/
theorem load_targets_remap_witness :
    (([7] : List ℕ).length = ([⟨5, 9⟩] : List MetaRow).length)
    ∧ (ucihar_load [7] [⟨5, 9⟩] (some [9])).2
        = (retainedSpec [7] [⟨5, 9⟩] ((some [9]).getD PERSONS)).map
            (fun sm => (sm.2.activity - 1, sm.2.person_id)) :=
  ⟨rfl, load_targets_remap [7] [⟨5, 9⟩] (some [9]) rfl⟩

/-- Claim C5: the windows and targets returned by `UCIHAR.load` have the
same number of rows, equal to the number of retained samples, and row `i`
of each describes the same physical sample. -/
theorem load_windows_targets_aligned {W : Type} (sdata : List W)
    (metas : List MetaRow) (pl0 : Option (List ℤ)) (i : Nat)
    (h : sdata.length = metas.length) :
    (ucihar_load sdata metas pl0).1.length
        = (ucihar_load sdata metas pl0).2.length
    ∧ (ucihar_load sdata metas pl0).1.length
        = (retainedSpec sdata metas (pl0.getD PERSONS)).length
    ∧ (ucihar_load sdata metas pl0).1[i]?
        = ((retainedSpec sdata metas (pl0.getD PERSONS))[i]?).map Prod.fst
    ∧ (ucihar_load sdata metas pl0).2[i]?
        = ((retainedSpec sdata metas (pl0.getD PERSONS))[i]?).map
            (fun sm => (sm.2.activity - 1, sm.2.person_id)) := by
  rw [ucihar_load_eq sdata metas pl0 h]
  refine ⟨by simp, by simp, ?_, ?_⟩ <;> simp [List.getElem?_map]

/-- Witness for C5 at a concrete two-sample dataset and row 0. -/
theorem load_windows_targets_aligned_witness :
    (([10, 20] : List ℕ).length = ([⟨1, 3⟩, ⟨2, 4⟩] : List MetaRow).length)
    ∧ ((ucihar_load [10, 20] [⟨1, 3⟩, ⟨2, 4⟩] (some [4])).1.length
        = (ucihar_load [10, 20] [⟨1, 3⟩, ⟨2, 4⟩] (some [4])).2.length
      ∧ (ucihar_load [10, 20] [⟨1, 3⟩, ⟨2, 4⟩] (some [4])).1.length
          = (retainedSpec [10, 20] [⟨1, 3⟩, ⟨2, 4⟩]
              ((some [4]).getD PERSONS)).length
      ∧ (ucihar_load [10, 20] [⟨1, 3⟩, ⟨2, 4⟩] (some [4])).1[0]?
          = ((retainedSpec [10, 20] [⟨1, 3⟩, ⟨2, 4⟩]
              ((some [4]).getD PERSONS))[0]?).map Prod.fst
      ∧ (ucihar_load [10, 20] [⟨1, 3⟩, ⟨2, 4⟩] (some [4])).2[0]?
          = ((retainedSpec [10, 20] [⟨1, 3⟩, ⟨2, 4⟩]
              ((some [4]).getD PERSONS))[0]?).map
              (fun sm => (sm.2.activity - 1, sm.2.person_id))) :=
  ⟨rfl, load_windows_targets_aligned [10, 20] [⟨1, 3⟩, ⟨2, 4⟩] (some [4]) 0 rfl⟩

/-- Claim C10: the result of `UCIHAR.load` depends only on the set of ids
in `person_list` — two lists with the same members (any order, any
duplicates) give identical `(windows, targets)` pairs. -/
theorem load_person_set_only {W : Type} (sdata : List W)
    (metas : List MetaRow) (l1 l2 : List ℤ)
    (h : sdata.length = metas.length)
    (h12 : l1.all (fun x => decide (x ∈ l2)) = true)
    (h21 : l2.all (fun x => decide (x ∈ l1)) = true) :
    ucihar_load sdata metas (some l1) = ucihar_load sdata metas (some l2) := by
  rw [ucihar_load_eq sdata metas (some l1) h,
      ucihar_load_eq sdata metas (some l2) h]
  have hre : retainedSpec sdata metas l1 = retainedSpec sdata metas l2 := by
    unfold retainedSpec
    apply List.filter_congr
    intro sm _
    simp only [decide_eq_decide]
    constructor
    · intro hm; simpa using List.all_eq_true.mp h12 _ hm
    · intro hm; simpa using List.all_eq_true.mp h21 _ hm
  simp only [Option.getD_some, hre]

/-- Witness for C10: `[3, 3, 5]` and `[5, 3]` select the same rows. -/
theorem load_person_set_only_witness :
    (([1, 2] : List ℕ).length = ([⟨1, 3⟩, ⟨2, 5⟩] : List MetaRow).length)
    ∧ (([3, 3, 5] : List ℤ).all (fun x => decide (x ∈ ([5, 3] : List ℤ))) = true)
    ∧ (([5, 3] : List ℤ).all (fun x => decide (x ∈ ([3, 3, 5] : List ℤ))) = true)
    ∧ ucihar_load [1, 2] [⟨1, 3⟩, ⟨2, 5⟩] (some [3, 3, 5])
        = ucihar_load [1, 2] [⟨1, 3⟩, ⟨2, 5⟩] (some [5, 3]) :=
  ⟨rfl, by decide, by decide,
    load_person_set_only [1, 2] [⟨1, 3⟩, ⟨2, 5⟩] [3, 3, 5] [5, 3] rfl
      (by decide) (by decide)⟩

/-! ## Lemmas about the IEEE domain -/

theorem Fneg_fin (x : ℝ) : Fneg (.fin x) = .fin (-x) := rfl

theorem Fadd_fin_fin (a b : ℝ) : Fadd (.fin a) (.fin b) = .fin (a + b) := rfl

theorem Fsub_fin_fin (a b : ℝ) : Fsub (.fin a) (.fin b) = .fin (a - b) := by
  simp [Fsub, Fadd, Fneg, sub_eq_add_neg]

theorem Fmul_fin_fin (a b : ℝ) : Fmul (.fin a) (.fin b) = .fin (a * b) := rfl

theorem Fabs_fin (x : ℝ) : Fabs (.fin x) = .fin |x| := rfl

theorem Fsq_fin (x : ℝ) : Fsq (.fin x) = .fin (x * x) := rfl

theorem Fdiv_fin_fin_ne (a b : ℝ) (hb : b ≠ 0) :
    Fdiv (.fin a) (.fin b) = .fin (a / b) := by
  simp [Fdiv, hb]

theorem Fdiv_fin_zero_pos (a : ℝ) (ha : 0 < a) :
    Fdiv (.fin a) (.fin 0) = .pinf := by
  simp [Fdiv, ha]

theorem Fmul_fin_pinf_pos (a : ℝ) (ha : 0 < a) :
    Fmul (.fin a) .pinf = .pinf := by
  simp [Fmul, ha]

theorem foldl_Fadd_fin {α : Type _} (g : α → ℝ) :
    ∀ (l : List α) (a : ℝ),
      (l.map (fun x => RF.fin (g x))).foldl Fadd (.fin a)
        = .fin (a + (l.map g).sum) := by
  intro l
  induction l with
  | nil => intro a; simp
  | cons x l ih =>
      intro a
      simp only [List.map_cons, List.foldl_cons, Fadd_fin_fin, List.sum_cons]
      rw [ih]
      ring_nf

theorem Fsum_fin_map {α : Type _} (g : α → ℝ) (l : List α) :
    Fsum (l.map (fun x => RF.fin (g x))) = .fin ((l.map g).sum) := by
  simpa using foldl_Fadd_fin g l 0

theorem Fmean_fin_map {α : Type _} (g : α → ℝ) (l : List α) (h : l ≠ []) :
    Fmean (l.map (fun x => RF.fin (g x)))
      = .fin ((l.map g).sum / l.length) := by
  unfold Fmean
  rw [Fsum_fin_map, List.length_map, Fdiv_fin_fin_ne]
  exact Nat.cast_ne_zero.mpr (fun hl => h (List.length_eq_zero.mp hl))

theorem zipWith_self_map {α β : Type _} (f : β → β → β) (g h : α → β) :
    ∀ l : List α,
      List.zipWith f (l.map g) (l.map h) = l.map (fun x => f (g x) (h x)) := by
  intro l
  induction l with
  | nil => rfl
  | cons x l ih => simp [ih]

theorem maeF_fin_self (l : List ℝ) (h : l ≠ []) :
    maeF (l.map .fin) (l.map .fin) = .fin 0 := by
  unfold maeF
  rw [zipWith_self_map, List.map_map]
  have hm : l.map (Fabs ∘ fun x => Fsub (.fin x) (.fin x))
      = l.map (fun _ => RF.fin 0) := by
    apply List.map_congr_left
    intro x _
    simp [Fsub_fin_fin, Fabs_fin]
  rw [hm, Fmean_fin_map (fun _ => (0 : ℝ)) l h]
  have : (l.map (fun _ => (0 : ℝ))).sum = 0 := by
    induction l with
    | nil => rfl
    | cons y l ih => simp [ih]
  simp [this]

theorem mseF_fin_self (l : List ℝ) (h : l ≠ []) :
    mseF (l.map .fin) (l.map .fin) = .fin 0 := by
  unfold mseF
  rw [zipWith_self_map, List.map_map]
  have hm : l.map (Fsq ∘ fun x => Fsub (.fin x) (.fin x))
      = l.map (fun _ => RF.fin 0) := by
    apply List.map_congr_left
    intro x _
    simp [Fsub_fin_fin, Fsq_fin]
  rw [hm, Fmean_fin_map (fun _ => (0 : ℝ)) l h]
  have : (l.map (fun _ => (0 : ℝ))).sum = 0 := by
    induction l with
    | nil => rfl
    | cons y l ih => simp [ih]
  simp [this]

theorem rmseF_fin_self (l : List ℝ) (h : l ≠ []) :
    rmseF (l.map .fin) (l.map .fin) = .fin 0 := by
  unfold rmseF
  rw [mseF_fin_self l h]
  simp [Fsqrt]

theorem snrF_fin_self (l : List ℝ)
    (h3 : (l.map (fun x => x * x)).sum ≠ 0) :
    snrF (l.map .fin) (l.map .fin) = .ok .pinf := by
  have hS : 0 < (l.map (fun x => x * x)).sum := by
    rcases lt_of_le_of_ne (List.sum_nonneg (by
      intro y hy
      rcases List.mem_map.mp hy with ⟨x, _, rfl⟩
      exact mul_self_nonneg x)) (Ne.symm h3) with hlt
    exact hlt
  have hnoise : (List.zipWith Fsub (l.map .fin) (l.map .fin)).map Fsq
      = l.map (fun x => RF.fin ((fun _ => (0 : ℝ)) x)) := by
    rw [zipWith_self_map, List.map_map]
    apply List.map_congr_left
    intro x _
    simp [Fsub_fin_fin, Fsq_fin]
  have hsig : (l.map RF.fin).map Fsq
      = l.map (fun x => RF.fin ((fun y => y * y) x)) := by
    rw [List.map_map]
    rfl
  have hzero : (l.map (fun _ => (0 : ℝ))).sum = 0 := by
    induction l with
    | nil => rfl
    | cons y l ih => simp [ih]
  unfold snrF
  rw [if_pos rfl, hnoise, hsig, Fsum_fin_map, Fsum_fin_map, hzero,
    Fdiv_fin_zero_pos _ hS]
  rw [show Flog10 .pinf = .pinf from rfl,
    Fmul_fin_pinf_pos 10 (by norm_num)]

/-- Claim C9 (amended): for every nonempty finite-valued array `s` whose
entries all exceed `-1` and whose sum of squares is nonzero,
`MAE(s,s) = MSE(s,s) = RMSE(s,s) = RMSLE(s,s) = 0` and `SNR(s,s) = +inf`
(error sum exactly zero in the denominator), all without crashing.  The
provisos are forced by IEEE arithmetic: at an identically-zero `s`,
`SNR(s,s)` is `NaN` (`0/0` inside the `log10`), and at entries `≤ -1`,
`RMSLE(s,s)` is `NaN` (`log 0 = -inf` and `(-inf) - (-inf) = NaN`). -/
theorem metrics_zero_noise (l : List ℝ) (h1 : l ≠ [])
    (h2 : (l.all fun x => decide ((-1 : ℝ) < x)) = true)
    (h3 : (l.map (fun x => x * x)).sum ≠ 0) :
    maeF (l.map .fin) (l.map .fin) = .fin 0
    ∧ mseF (l.map .fin) (l.map .fin) = .fin 0
    ∧ rmseF (l.map .fin) (l.map .fin) = .fin 0
    ∧ rmsleF (l.map .fin) (l.map .fin) = .fin 0
    ∧ snrF (l.map .fin) (l.map .fin) = .ok .pinf := by
  refine ⟨maeF_fin_self l h1, mseF_fin_self l h1, rmseF_fin_self l h1,
    ?_, snrF_fin_self l h3⟩
  unfold rmsleF
  have hlog : (l.map RF.fin).map (fun x => Flog (Fadd x (.fin 1)))
      = (l.map (fun x => Real.log (x + 1))).map .fin := by
    rw [List.map_map, List.map_map]
    apply List.map_congr_left
    intro x hx
    have hx1 : (0 : ℝ) < x + 1 := by
      have := List.all_eq_true.mp h2 x hx
      simp only [decide_eq_true_eq] at this
      linarith
    simp [Fadd_fin_fin, Flog, hx1]
  rw [hlog]
  exact rmseF_fin_self _ (by simpa using h1)

/-- Witness for C9 (amended) at `s = [1]`. -/
theorem metrics_zero_noise_witness :
    (([1] : List ℝ) ≠ []
      ∧ (([1] : List ℝ).all fun x => decide ((-1 : ℝ) < x)) = true
      ∧ (([1] : List ℝ).map (fun x => x * x)).sum ≠ 0)
    ∧ (maeF (([1] : List ℝ).map .fin) (([1] : List ℝ).map .fin) = .fin 0
      ∧ mseF (([1] : List ℝ).map .fin) (([1] : List ℝ).map .fin) = .fin 0
      ∧ rmseF (([1] : List ℝ).map .fin) (([1] : List ℝ).map .fin) = .fin 0
      ∧ rmsleF (([1] : List ℝ).map .fin) (([1] : List ℝ).map .fin) = .fin 0
      ∧ snrF (([1] : List ℝ).map .fin) (([1] : List ℝ).map .fin) = .ok .pinf) :=
  ⟨⟨by simp, by norm_num, by norm_num⟩,
    metrics_zero_noise [1] (by simp) (by norm_num) (by norm_num)⟩

/-- Counterexample for C9 as frozen: at the all-zero array `s = [0.]`,
`SNR(s,s)` is `NaN`, not `+inf` (`0/0` in the IEEE quotient); and at
`s = [-1.]`, `RMSLE(s,s)` is `NaN`, not `0`. -/
theorem zero_noise_counterexample :
    snrF [RF.fin 0] [RF.fin 0] = .ok RF.nan
    ∧ RF.nan ≠ RF.pinf
    ∧ rmsleF [RF.fin (-1)] [RF.fin (-1)] = RF.nan
    ∧ RF.nan ≠ RF.fin 0 := by
  refine ⟨?_, fun h => RF.noConfusion h, ?_, fun h => RF.noConfusion h⟩
  · unfold snrF
    rw [if_pos rfl]
    norm_num [Fsum, Fsq, Fmul, Fsub, Fneg, Fadd, Fdiv, Flog10]
  · unfold rmsleF rmseF mseF Fmean Fsum
    norm_num [Fadd, Flog, Fsub, Fneg, Fsq, Fmul, Fdiv, Fsqrt]

/-! ## Lemmas about the real-valued metrics -/

theorem row_ones_sub_ratio (tr : List ℝ) :
    ∀ pr : List ℝ,
      List.zipWith (fun x y => x - y) (tr.map (fun _ => (1 : ℝ)))
          (List.zipWith (fun x y => x / y) pr tr)
        = (tr.zip pr).map (fun ab => 1 - ab.2 / ab.1) := by
  induction tr with
  | nil => intro pr; simp
  | cons a tr ih =>
      intro pr
      cases pr with
      | nil => simp
      | cons b pr =>
          simp only [List.map_cons, List.zipWith_cons_cons, List.zip_cons_cons]
          rw [ih pr]

theorem mat_ones_sub_ratio (t : Mat) :
    ∀ p : Mat,
      absM (subM (onesLike t) (divM p t))
        = (t.zip p).map (fun rp =>
            (rp.1.zip rp.2).map (fun ab => |1 - ab.2 / ab.1|)) := by
  induction t with
  | nil => intro p; rfl
  | cons tr t ih =>
      intro p
      cases p with
      | nil => simp [absM, subM, divM, onesLike, mapE, map2]
      | cons pr p =>
          have hrow := row_ones_sub_ratio tr pr
          simp only [absM, subM, divM, onesLike, mapE, map2, List.map_cons,
            List.zipWith_cons_cons, List.zip_cons_cons] at ih ⊢
          refine congrArg₂ List.cons ?_ (ih p)
          rw [hrow, List.map_map]
          rfl

theorem row_div_sub (tr : List ℝ) :
    ∀ pr : List ℝ,
      List.zipWith (fun x y => x / y) tr
          (List.zipWith (fun x y => x - y) tr pr)
        = (tr.zip pr).map (fun ab => ab.1 / (ab.1 - ab.2)) := by
  induction tr with
  | nil => intro pr; simp
  | cons a tr ih =>
      intro pr
      cases pr with
      | nil => simp
      | cons b pr =>
          simp only [List.zipWith_cons_cons, List.zip_cons_cons, List.map_cons]
          rw [ih pr]

theorem mat_div_sub (f : ℝ → ℝ) (t : Mat) :
    ∀ p : Mat,
      mapE f (divM t (subM t p))
        = (t.zip p).map (fun rp =>
            (rp.1.zip rp.2).map (fun ab => f (ab.1 / (ab.1 - ab.2)))) := by
  induction t with
  | nil => intro p; rfl
  | cons tr t ih =>
      intro p
      cases p with
      | nil => simp [subM, divM, mapE, map2]
      | cons pr p =>
          have hrow := row_div_sub tr pr
          simp only [subM, divM, mapE, map2, List.map_cons,
            List.zipWith_cons_cons, List.zip_cons_cons] at ih ⊢
          refine congrArg₂ List.cons ?_ (ih p)
          rw [hrow, List.map_map]
          rfl

theorem rf_ones_sub_ratio (t : List RF) :
    ∀ p : List RF,
      List.zipWith Fsub (FonesLike t) (List.zipWith Fdiv p t)
        = (List.zipWith Fdiv p t).map (fun r => Fsub (.fin 1) r) := by
  induction t with
  | nil => intro p; simp
  | cons a t ih =>
      intro p
      cases p with
      | nil => simp [FonesLike]
      | cons b p => simp [FonesLike, ih p] at ih ⊢; simp [ih p]

/-- Claim C6: `mape(true, pred, axis)` is
`mae(ones_like(true), pred/true, axis) * 100`, i.e. 100 times the mean of
`|1 - pred/true|` — the percentage deviation of the ratio `pred/true`
from 1, not the conventional `|true - pred| / true` — both in the
exact-real embedding (every axis) and in the IEEE embedding, where an
unguarded division by a zero of `true` produces an infinity that
propagates to the returned value. -/
theorem mape_ratio_formula :
    (∀ (t p : Mat) (ax : Axis), mape t p ax = mapeSpec t p ax)
    ∧ (∀ t p : List RF, mapeF t p = mapeSpecF t p)
    ∧ mapeF [.fin 1, .fin 0] [.fin 1, .fin 1] = .pinf := by
  refine ⟨?_, ?_, ?_⟩
  · intro t p ax
    unfold mape mapeSpec mae
    rw [mat_ones_sub_ratio t p]
  · intro t p
    unfold mapeF mapeSpecF maeF
    rw [rf_ones_sub_ratio t p, List.map_map]
    rfl
  · norm_num [mapeF, maeF, FonesLike, Fmean, Fsum, Fdiv, Fsub, Fadd, Fneg,
      Fabs, Fmul]

/-- Claim C1 (amended): for every pair of spectra and every axis argument,
`lsd` returns `sqrt(mean(20·log10(|true/(true - pred)|)))` — the mean of
the raw `20·log10` term, with no squaring applied, and with the
difference `true - pred` as the denominator inside the absolute value. -/
theorem lsd_no_square (t p : Mat) (ax : Axis) :
    lsd t p ax
      = .scalar (Real.sqrt (listMean
          (((t.zip p).map (fun rp => (rp.1.zip rp.2).map
            (fun ab => 20 * Real.logb 10 |ab.1 / (ab.1 - ab.2)|))).flatten))) := by
  unfold lsd
  rw [mat_div_sub (fun x => 20 * Real.logb 10 |x|) t p]

/-- Counterexample for C1 as frozen: at `true = [[10.]]`, `pred = [[9.]]`
the code returns `sqrt(20·log10 10) = sqrt 20`, while the claimed formula
with the square gives `sqrt((20·log10 10)^2) = 20`, and `sqrt 20 ≠ 20`. -/
theorem lsd_claim_counterexample :
    lsd [[10]] [[9]] .all = .scalar (Real.sqrt 20)
    ∧ Real.sqrt ((20 * Real.logb 10 |(10 : ℝ) / ((10 : ℝ) - 9)|) ^ 2) = 20
    ∧ Real.sqrt 20 ≠ 20 := by
  have hlogb : Real.logb 10 10 = 1 := Real.logb_self_eq_one (by norm_num)
  refine ⟨?_, ?_, ?_⟩
  · unfold lsd
    norm_num [divM, subM, map2, mapE, listMean, hlogb]
  · norm_num [hlogb]
    rw [show (400 : ℝ) = 20 ^ 2 by norm_num,
      Real.sqrt_sq (by norm_num : (0 : ℝ) ≤ 20)]
  · intro h
    have hs : Real.sqrt 20 ^ 2 = 20 := Real.sq_sqrt (by norm_num)
    rw [h] at hs
    norm_num at hs

/-- Claim C7: `snr` reports a precondition failure exactly when
`true.shape != pred.shape`, and otherwise computes its unchecked body
`snrVal`; no other metric of the embedding has an error case (they are
total functions into `NpVal`), mirroring the absence of any shape check
outside `snr` in the source. -/
theorem snr_shape_check (t p : Mat) (ax : Axis) :
    (snr t p ax = .error "true.shape == pred.shape failed"
      ↔ npShape t ≠ npShape p)
    ∧ (snr t p ax = .ok (snrVal t p ax) ↔ npShape t = npShape p) := by
  unfold snr
  by_cases h : npShape t = npShape p
  · simp [h]
  · simp [h]

/-! ## Shape lemmas for the axis behavior of the metrics -/

theorem length_map2 (f : ℝ → ℝ → ℝ) (a b : Mat) :
    (map2 f a b).length = min a.length b.length := by
  simp [map2]

theorem headD_map2 (f : ℝ → ℝ → ℝ) (a b : Mat) :
    ((map2 f a b).head?.getD [])
      = List.zipWith f (a.head?.getD []) (b.head?.getD []) := by
  cases a <;> cases b <;> simp [map2]

theorem length_mapE (f : ℝ → ℝ) (m : Mat) : (mapE f m).length = m.length := by
  simp [mapE]

theorem headD_mapE (f : ℝ → ℝ) (m : Mat) :
    ((mapE f m).head?.getD []) = (m.head?.getD []).map f := by
  cases m <;> simp [mapE]

theorem aggAx_all_isVec (g : List ℝ → ℝ) (m : Mat) :
    (aggAx g m .all).isVec = false := rfl

theorem aggAx_a0_vlen (g : List ℝ → ℝ) (m : Mat) :
    (aggAx g m .a0).vlen = some (m.headD []).length := by
  simp [aggAx, NpVal.vlen]

theorem aggAx_a1_vlen (g : List ℝ → ℝ) (m : Mat) :
    (aggAx g m .a1).vlen = some m.length := by
  simp [aggAx, NpVal.vlen]

theorem mapVal_isVec (f : ℝ → ℝ) (v : NpVal) :
    (mapVal f v).isVec = v.isVec := by
  cases v <;> rfl

theorem mapVal_vlen (f : ℝ → ℝ) (v : NpVal) : (mapVal f v).vlen = v.vlen := by
  cases v <;> simp [mapVal, NpVal.vlen]

/-- Claim C8 (amended): for two arrays of shape `(r, c)`, every metric
that takes the reduction-axis argument — `mae`, `mape`, `mse`, `rmse`,
`rmspe`, `rmsle` and `snr` — returns a scalar for `axis=None`, a length-`c`
array for `axis=0` and a length-`r` array for `axis=1`; the exception is
`lsd`, which accepts the axis argument but ignores it and always reduces
over all elements to a scalar. -/
theorem metrics_axis_behavior (t p : Mat) (r c : Nat) (ax : Axis)
    (ht : npShape t = (r, c)) (hp : npShape p = (r, c)) :
    ((mae t p .all).isVec = false
      ∧ (mae t p .a0).vlen = some c ∧ (mae t p .a1).vlen = some r)
    ∧ ((mape t p .all).isVec = false
      ∧ (mape t p .a0).vlen = some c ∧ (mape t p .a1).vlen = some r)
    ∧ ((mse t p .all).isVec = false
      ∧ (mse t p .a0).vlen = some c ∧ (mse t p .a1).vlen = some r)
    ∧ ((rmse t p .all).isVec = false
      ∧ (rmse t p .a0).vlen = some c ∧ (rmse t p .a1).vlen = some r)
    ∧ ((rmspe t p .all).isVec = false
      ∧ (rmspe t p .a0).vlen = some c ∧ (rmspe t p .a1).vlen = some r)
    ∧ ((rmsle t p .all).isVec = false
      ∧ (rmsle t p .a0).vlen = some c ∧ (rmsle t p .a1).vlen = some r)
    ∧ (snr t p ax = .ok (snrVal t p ax)
      ∧ (snrVal t p .all).isVec = false
      ∧ (snrVal t p .a0).vlen = some c ∧ (snrVal t p .a1).vlen = some r)
    ∧ (lsd t p ax = lsd t p .all ∧ (lsd t p ax).isVec = false) := by
  have ht1 : t.length = r := congrArg Prod.fst ht
  have ht2 : (t.head?.getD []).length = c := by
    rw [← List.headD_eq_head?]; exact congrArg Prod.snd ht
  have hp1 : p.length = r := congrArg Prod.fst hp
  have hp2 : (p.head?.getD []).length = c := by
    rw [← List.headD_eq_head?]; exact congrArg Prod.snd hp
  have hsh : npShape t = npShape p := ht.trans hp.symm
  refine ⟨⟨?_, ?_, ?_⟩, ⟨?_, ?_, ?_⟩, ⟨?_, ?_, ?_⟩, ⟨?_, ?_, ?_⟩,
    ⟨?_, ?_, ?_⟩, ⟨?_, ?_, ?_⟩, ⟨by simp [snr, hsh], ?_, ?_, ?_⟩,
    ⟨rfl, rfl⟩⟩ <;>
    simp [mae, mape, mse, rmse, rmspe, rmsle, snrVal, meanAx, sumAx,
      scaleVal, mapVal_isVec, mapVal_vlen, aggAx_all_isVec, aggAx_a0_vlen,
      aggAx_a1_vlen, aggAx, zipVal, mapVal, NpVal.isVec, NpVal.vlen,
      absM, subM, divM, sqM, onesLike, headD_mapE, headD_map2,
      length_mapE, length_map2, List.length_zipWith, List.length_map,
      List.length_range, ht1, ht2, hp1, hp2, min_self]

/-- Witness for C8 (amended) at the 1-by-1 arrays `[[1.]]`, `[[1.]]` with
`axis=0`. -/
theorem metrics_axis_behavior_witness :
    (npShape [[(1 : ℝ)]] = (1, 1) ∧ npShape [[(1 : ℝ)]] = (1, 1))
    ∧ (((mae [[(1 : ℝ)]] [[(1 : ℝ)]] .all).isVec = false
      ∧ (mae [[(1 : ℝ)]] [[(1 : ℝ)]] .a0).vlen = some 1
      ∧ (mae [[(1 : ℝ)]] [[(1 : ℝ)]] .a1).vlen = some 1)
    ∧ ((mape [[(1 : ℝ)]] [[(1 : ℝ)]] .all).isVec = false
      ∧ (mape [[(1 : ℝ)]] [[(1 : ℝ)]] .a0).vlen = some 1
      ∧ (mape [[(1 : ℝ)]] [[(1 : ℝ)]] .a1).vlen = some 1)
    ∧ ((mse [[(1 : ℝ)]] [[(1 : ℝ)]] .all).isVec = false
      ∧ (mse [[(1 : ℝ)]] [[(1 : ℝ)]] .a0).vlen = some 1
      ∧ (mse [[(1 : ℝ)]] [[(1 : ℝ)]] .a1).vlen = some 1)
    ∧ ((rmse [[(1 : ℝ)]] [[(1 : ℝ)]] .all).isVec = false
      ∧ (rmse [[(1 : ℝ)]] [[(1 : ℝ)]] .a0).vlen = some 1
      ∧ (rmse [[(1 : ℝ)]] [[(1 : ℝ)]] .a1).vlen = some 1)
    ∧ ((rmspe [[(1 : ℝ)]] [[(1 : ℝ)]] .all).isVec = false
      ∧ (rmspe [[(1 : ℝ)]] [[(1 : ℝ)]] .a0).vlen = some 1
      ∧ (rmspe [[(1 : ℝ)]] [[(1 : ℝ)]] .a1).vlen = some 1)
    ∧ ((rmsle [[(1 : ℝ)]] [[(1 : ℝ)]] .all).isVec = false
      ∧ (rmsle [[(1 : ℝ)]] [[(1 : ℝ)]] .a0).vlen = some 1
      ∧ (rmsle [[(1 : ℝ)]] [[(1 : ℝ)]] .a1).vlen = some 1)
    ∧ (snr [[(1 : ℝ)]] [[(1 : ℝ)]] .a0
          = .ok (snrVal [[(1 : ℝ)]] [[(1 : ℝ)]] .a0)
      ∧ (snrVal [[(1 : ℝ)]] [[(1 : ℝ)]] .all).isVec = false
      ∧ (snrVal [[(1 : ℝ)]] [[(1 : ℝ)]] .a0).vlen = some 1
      ∧ (snrVal [[(1 : ℝ)]] [[(1 : ℝ)]] .a1).vlen = some 1)
    ∧ (lsd [[(1 : ℝ)]] [[(1 : ℝ)]] .a0 = lsd [[(1 : ℝ)]] [[(1 : ℝ)]] .all
      ∧ (lsd [[(1 : ℝ)]] [[(1 : ℝ)]] .a0).isVec = false)) :=
  ⟨⟨rfl, rfl⟩, metrics_axis_behavior [[1]] [[1]] 1 1 .a0 rfl rfl⟩

/-- Counterexample for C8 as frozen: on the 2-by-2 input
`true = [[10,10],[10,10]]`, `pred = [[9,9],[9,9]]` with `axis=0`, `lsd`
returns a scalar (`sqrt 20`), not a length-2 per-column array: its axis
argument is ignored. -/
theorem lsd_axis_counterexample :
    (lsd [[10, 10], [10, 10]] [[9, 9], [9, 9]] .a0).isVec = false
    ∧ lsd [[10, 10], [10, 10]] [[9, 9], [9, 9]] .a0
        = .scalar (Real.sqrt 20) := by
  have hlogb : Real.logb 10 10 = 1 := Real.logb_self_eq_one (by norm_num)
  refine ⟨rfl, ?_⟩
  unfold lsd
  norm_num [divM, subM, map2, mapE, listMean, hlogb]

/-! ## Lemmas about the raw-window stacking -/

theorem length_zip3With {α β γ δ : Type _} (f : α → β → γ → δ) :
    ∀ (as : List α) (bs : List β) (cs : List γ),
      (zip3With f as bs cs).length
        = min (min as.length bs.length) cs.length := by
  intro as
  induction as with
  | nil => intro bs cs; simp [zip3With]
  | cons a as ih =>
      intro bs cs
      cases bs with
      | nil => simp [zip3With]
      | cons b bs =>
          cases cs with
          | nil => simp [zip3With]
          | cons c cs => simp [zip3With, ih, Nat.succ_min_succ]

theorem zip3With_getElem? {α β γ δ : Type _} (f : α → β → γ → δ) :
    ∀ (as : List α) (bs : List β) (cs : List γ) (i : Nat) (a : α) (b : β)
      (c : γ), as[i]? = some a → bs[i]? = some b → cs[i]? = some c →
      (zip3With f as bs cs)[i]? = some (f a b c) := by
  intro as
  induction as with
  | nil => intro bs cs i a b c ha; simp at ha
  | cons a0 as ih =>
      intro bs cs i a b c ha hb hc
      cases bs with
      | nil => simp at hb
      | cons b0 bs =>
          cases cs with
          | nil => simp at hc
          | cons c0 cs =>
              cases i with
              | zero =>
                  simp only [List.getElem?_cons_zero, Option.some.injEq]
                    at ha hb hc
                  simp [zip3With, ha, hb, hc]
              | succ j =>
                  simp only [List.getElem?_cons_succ] at ha hb hc
                  simpa [zip3With] using ih bs cs j a b c ha hb hc

/-- Claim C4: the free function `load` reads the three per-axis files of
the chosen split+variant and stacks them into a `(samples, 3, timesteps)`
array whose channel 0 is the x-axis file, channel 1 the y-axis file and
channel 2 the z-axis file. -/
theorem load_raw_stacking (fs : UciFS) (train ig : Bool) (n ts i : Nat)
    (hx : (selectTriple fs train ig).x.length = n)
    (hy : (selectTriple fs train ig).y.length = n)
    (hz : (selectTriple fs train ig).z.length = n)
    (hi : i < n)
    (hxi : ((selectTriple fs train ig).x.getD i []).length = ts)
    (hyi : ((selectTriple fs train ig).y.getD i []).length = ts)
    (hzi : ((selectTriple fs train ig).z.getD i []).length = ts) :
    (ucihar_load_raw fs train ig).length = n
    ∧ (ucihar_load_raw fs train ig)[i]?
        = some [(selectTriple fs train ig).x.getD i [],
                (selectTriple fs train ig).y.getD i [],
                (selectTriple fs train ig).z.getD i []]
    ∧ ((ucihar_load_raw fs train ig).getD i []).map List.length
        = [ts, ts, ts] := by
  have hxe : (selectTriple fs train ig).x[i]?
      = some ((selectTriple fs train ig).x.getD i []) := by
    rw [List.getD_eq_getElem _ _ (by rw [hx]; exact hi)]
    exact List.getElem?_eq_getElem _
  have hye : (selectTriple fs train ig).y[i]?
      = some ((selectTriple fs train ig).y.getD i []) := by
    rw [List.getD_eq_getElem _ _ (by rw [hy]; exact hi)]
    exact List.getElem?_eq_getElem _
  have hze : (selectTriple fs train ig).z[i]?
      = some ((selectTriple fs train ig).z.getD i []) := by
    rw [List.getD_eq_getElem _ _ (by rw [hz]; exact hi)]
    exact List.getElem?_eq_getElem _
  have hmem : (ucihar_load_raw fs train ig)[i]?
      = some [(selectTriple fs train ig).x.getD i [],
              (selectTriple fs train ig).y.getD i [],
              (selectTriple fs train ig).z.getD i []] := by
    simp only [ucihar_load_raw]
    exact zip3With_getElem? _ _ _ _ i _ _ _ hxe hye hze
  refine ⟨?_, hmem, ?_⟩
  · simp [ucihar_load_raw, length_zip3With, hx, hy, hz]
  · rw [List.getD_eq_getElem?_getD, hmem]
    simp only [Option.getD_some, List.map_cons, List.map_nil]
    rw [hxi, hyi, hzi]

/-- Witness for C4 at a concrete one-sample, two-timestep dataset with
`train = true`, `include_gravity = true`. -/
theorem load_raw_stacking_witness :
    ((selectTriple
        ⟨⟨[[1, 2]], [[3, 4]], [[5, 6]]⟩, ⟨[[0]], [[0]], [[0]]⟩,
          ⟨[[0]], [[0]], [[0]]⟩, ⟨[[0]], [[0]], [[0]]⟩⟩ true true).x.length = 1
      ∧ (0 : Nat) < 1)
    ∧ ((ucihar_load_raw
        ⟨⟨[[1, 2]], [[3, 4]], [[5, 6]]⟩, ⟨[[0]], [[0]], [[0]]⟩,
          ⟨[[0]], [[0]], [[0]]⟩, ⟨[[0]], [[0]], [[0]]⟩⟩ true true).length = 1
      ∧ (ucihar_load_raw
          ⟨⟨[[1, 2]], [[3, 4]], [[5, 6]]⟩, ⟨[[0]], [[0]], [[0]]⟩,
            ⟨[[0]], [[0]], [[0]]⟩, ⟨[[0]], [[0]], [[0]]⟩⟩ true true)[0]?
        = some [(selectTriple
              ⟨⟨[[1, 2]], [[3, 4]], [[5, 6]]⟩, ⟨[[0]], [[0]], [[0]]⟩,
                ⟨[[0]], [[0]], [[0]]⟩, ⟨[[0]], [[0]], [[0]]⟩⟩ true
              true).x.getD 0 [],
            (selectTriple
              ⟨⟨[[1, 2]], [[3, 4]], [[5, 6]]⟩, ⟨[[0]], [[0]], [[0]]⟩,
                ⟨[[0]], [[0]], [[0]]⟩, ⟨[[0]], [[0]], [[0]]⟩⟩ true
              true).y.getD 0 [],
            (selectTriple
              ⟨⟨[[1, 2]], [[3, 4]], [[5, 6]]⟩, ⟨[[0]], [[0]], [[0]]⟩,
                ⟨[[0]], [[0]], [[0]]⟩, ⟨[[0]], [[0]], [[0]]⟩⟩ true
              true).z.getD 0 []]
      ∧ ((ucihar_load_raw
          ⟨⟨[[1, 2]], [[3, 4]], [[5, 6]]⟩, ⟨[[0]], [[0]], [[0]]⟩,
            ⟨[[0]], [[0]], [[0]]⟩, ⟨[[0]], [[0]], [[0]]⟩⟩ true
          true).getD 0 []).map List.length = [2, 2, 2]) :=
  ⟨⟨rfl, Nat.one_pos⟩,
    load_raw_stacking
      ⟨⟨[[1, 2]], [[3, 4]], [[5, 6]]⟩, ⟨[[0]], [[0]], [[0]]⟩,
        ⟨[[0]], [[0]], [[0]]⟩, ⟨[[0]], [[0]], [[0]]⟩⟩ true true 1 2 0
      rfl rfl rfl Nat.one_pos rfl rfl rfl⟩

end SensorUtils
